import Mathlib

/-!
# Verification of the aerocast air-quality forecasting pipeline

Shallow embedding, over exact rational arithmetic, of the data-preparation,
sequencing and evaluation core of the repository:

* `src/src/preprocessing/data_quality.py`    (`DataQualityEnhancer`)
* `src/src/preprocessing/feature_engineering.py` (`FeatureEngineer`)
* `src/src/utils/helpers.py`                 (`split_time_series`)
* `src/src/evaluation/metrics.py`            (`ModelEvaluator`)

Columns of a dataframe are lists of rationals; pandas/numpy operations are
translated operation by operation.  Non-finite float results (NaN / +-Inf)
are represented by `Option`/dedicated constructors where a claim depends on
them.
-/

namespace AeroCast

/-- Floor of a (nonnegative) rational position as a natural number, in a form
the kernel can evaluate (`Rat.floor` is structurally computable, unlike the
`⌊·⌋₊` instance chain).  `ratFloorNat_eq` identifies it with `⌊·⌋₊`. -/
def ratFloorNat (q : ℚ) : ℕ :=
  q.floor.toNat

/-- Linear interpolation into an already sorted list at fractional position
`pos`, exactly as `numpy`/`pandas` compute a linearly interpolated quantile:
with `i = ⌊pos⌋`, the result is `s[i] + (pos - i) * (s[i+1] - s[i])`, and
`s[i]` when `i` is the last index. -/
def sortedInterp (s : List ℚ) (pos : ℚ) : ℚ :=
  let i := ratFloorNat pos
  let a := s.getD i 0
  let b := s.getD (i + 1) a
  a + (pos - (i : ℚ)) * (b - a)

/-- Model of `pandas.Series.quantile(q)` with the default linear interpolation:
sort the values and interpolate at position `q * (n - 1)`.
(`df[col].quantile(0.25)` / `quantile(0.75)` in
`DataQualityEnhancer.detect_and_handle_outliers`,
`src/src/preprocessing/data_quality.py` lines 57-58.) -/
def pandasQuantile (l : List ℚ) (q : ℚ) : ℚ :=
  sortedInterp (l.insertionSort (· ≤ ·)) (q * ((l.length : ℚ) - 1))

/-- Model of `np.clip(x, lo, hi) = min(max(x, lo), hi)` on a scalar, written with
explicit comparisons so the kernel can evaluate it. -/
def npClip (lo hi x : ℚ) : ℚ :=
  let m := if x ≤ lo then lo else x
  if hi ≤ m then hi else m

/-- The IQR outlier bounds computed by
`DataQualityEnhancer.detect_and_handle_outliers` with `method='iqr'`
(`src/src/preprocessing/data_quality.py` lines 56-61):
`Q1 = quantile(0.25)`, `Q3 = quantile(0.75)`, `IQR = Q3 - Q1`,
bounds `(Q1 - factor*IQR, Q3 + factor*IQR)`. -/
def iqrBounds (factor : ℚ) (col : List ℚ) : ℚ × ℚ :=
  let q1 := pandasQuantile col (1/4)
  let q3 := pandasQuantile col (3/4)
  let iqr := q3 - q1
  (q1 - factor * iqr, q3 + factor * iqr)

/-- The per-column effect of `DataQualityEnhancer.detect_and_handle_outliers`
with `method='iqr'` (`src/src/preprocessing/data_quality.py` lines 56-67):
compute the IQR bounds **from the given column** and cap every value into
them with `np.clip`; values are capped, never removed. -/
def detect_and_handle_outliers_col (factor : ℚ) (col : List ℚ) : List ℚ :=
  let b := iqrBounds factor col
  col.map (npClip b.1 b.2)

/-- The fitted state of a `DataQualityEnhancer`, restricted to the parts the
replay contract is about for a single numeric column: the stored outlier
bounds (`self.outlier_bounds[col]`, written at line 64 of
`src/src/preprocessing/data_quality.py`) and the fitted `RobustScaler`
parameters (`self.scalers['robust']`, line 215: center = median,
scale = IQR of the fitted column). -/
structure EnhancerState where
  outlierBounds : Option (ℚ × ℚ)
  scalerParams : Option (ℚ × ℚ)
  deriving Repr, DecidableEq

/-- Fresh `DataQualityEnhancer.__init__` state: empty bound/scaler dicts. -/
def initEnhancerState : EnhancerState :=
  { outlierBounds := none, scalerParams := none }

/-- Model of `DataQualityEnhancer.detect_and_handle_outliers` with `method='iqr'` as a
state transformer on a single column (`src/src/preprocessing/data_quality.py`
lines 50-67): the bounds are recomputed from the **argument** column's
quantiles, stored into `self.outlier_bounds`, and used to cap the column.
The previously stored bounds in the incoming state are not consulted. -/
def detect_and_handle_outliers (s : EnhancerState) (factor : ℚ) (col : List ℚ) :
    EnhancerState × List ℚ :=
  let b := iqrBounds factor col
  ({ s with outlierBounds := some b }, col.map (npClip b.1 b.2))

/-- Model of sklearn `RobustScaler.fit` on one column: center = median
(`quantile(0.5)`), scale = `quantile(0.75) - quantile(0.25)`. -/
def robustScalerFit (col : List ℚ) : ℚ × ℚ :=
  (pandasQuantile col (1/2), pandasQuantile col (3/4) - pandasQuantile col (1/4))

/-- Model of `RobustScaler.transform` on one column with fitted `(center, scale)`:
`(x - center) / scale`, where sklearn replaces a zero scale by 1. -/
def robustScalerTransform (p : ℚ × ℚ) (col : List ℚ) : List ℚ :=
  let sc := if p.2 = 0 then 1 else p.2
  col.map (fun x => (x - p.1) / sc)

/-- The fitting pass of `DataQualityEnhancer.enhance_data_quality`
(`src/src/preprocessing/data_quality.py` lines 326-396) restricted to the
steps that carry fitted state for a single column: outlier capping with
`method='iqr', factor=2.0` (line 358) followed by fitting and applying the
robust scaler (lines 212-215 via line 380).  The intermediate feature
synthesis steps add further columns but do not alter this column's values
or the fitted outlier/scaler state for it. -/
def enhance_data_quality (s : EnhancerState) (col : List ℚ) :
    EnhancerState × List ℚ :=
  let r1 := detect_and_handle_outliers s 2 col
  let p := robustScalerFit r1.2
  ({ r1.1 with scalerParams := some p }, robustScalerTransform p r1.2)

/-- Model of `DataQualityEnhancer.transform_new_data`
(`src/src/preprocessing/data_quality.py` lines 426-456) restricted to the
same column view: it calls `detect_and_handle_outliers(df, method='iqr',
factor=2.0)` again (line 439) — recomputing and re-storing the outlier
bounds from the **new** data — and then applies the fitted robust scaler
with `transform` (lines 451-454). -/
def transform_new_data (s : EnhancerState) (col : List ℚ) :
    EnhancerState × List ℚ :=
  let r1 := detect_and_handle_outliers s 2 col
  let c2 := match r1.1.scalerParams with
    | some p => robustScalerTransform p r1.2
    | none => r1.2
  (r1.1, c2)

/-- Model of `split_time_series` from `src/src/utils/helpers.py` lines 198-232, on the
timestamp column (the only column the chronological-split claims are about).
The assertion `abs(train_ratio + val_ratio + test_ratio - 1.0) < 1e-6` is
modelled by returning `none` when it fails.  The frame is sorted by the
datetime column (`df.sort_values`), then sliced at
`train_end = int(n * train_ratio)` and `val_end = int(n * (train_ratio +
val_ratio))` (`int()` truncates; for the nonnegative ratios of a valid split
it coincides with the floor used here). -/
def split_time_series (ts : List ℚ) (tr vr te : ℚ) :
    Option (List ℚ × List ℚ × List ℚ) :=
  if |tr + vr + te - 1| < 1/1000000 then
    let s := ts.insertionSort (· ≤ ·)
    let n := s.length
    let trainEnd := ratFloorNat ((n : ℚ) * tr)
    let valEnd := ratFloorNat ((n : ℚ) * (tr + vr))
    some (s.take trainEnd, (s.take valEnd).drop trainEnd, s.drop valEnd)
  else
    none

/-- Model of `FeatureEngineer.create_sequences`
(`src/src/preprocessing/feature_engineering.py` lines 332-372).  A dataframe
row is represented with its feature-column values and target-column values
already separated (`feature_columns = [col for col in df.columns if col not
in target_columns]`, line 352).  The loop
`for i in range(len(df) - sequence_length - forecast_horizon + 1)` runs over
`((N - L - H) + 1).toNat` indices — empty when the bound is nonpositive,
exactly like Python's `range` on a negative argument; each `X` window is
`rows[i : i+L]` restricted to features, each `y` window is
`rows[i+L : i+L+H]` restricted to targets. -/
def create_sequences (rows : List (List ℚ × List ℚ)) (L H : ℕ) :
    List (List (List ℚ)) × List (List (List ℚ)) :=
  let n := (((rows.length : ℤ) - L - H) + 1).toNat
  ((List.range n).map (fun i => ((rows.drop i).take L).map Prod.fst),
   (List.range n).map (fun i => ((rows.drop (i + L)).take H).map Prod.snd))

/-- Result of the MAPE computation: `np.inf` is a possible sentinel return
value (`src/src/evaluation/metrics.py` line 119), so the result type marks it
explicitly. -/
inductive MAPEResult where
  | posInf : MAPEResult
  | finite : ℚ → MAPEResult
  deriving Repr, DecidableEq

/-- Model of `ModelEvaluator._mean_absolute_percentage_error`
(`src/src/evaluation/metrics.py` lines 114-121): mask out entries whose true
value is zero (`mask = y_true != 0`); if no entry survives, return `np.inf`;
otherwise return `np.mean(np.abs((y_true[mask] - y_pred[mask]) /
y_true[mask])) * 100`. -/
def mean_absolute_percentage_error (yTrue yPred : List ℚ) : MAPEResult :=
  if (yTrue.filter (fun t => decide (t ≠ 0))).isEmpty then .posInf
  else
    let masked := (yTrue.zip yPred).filter (fun p => decide (p.1 ≠ 0))
    .finite ((masked.map (fun p => |(p.1 - p.2) / p.1|)).sum / masked.length * 100)

/-- Written from the spec's words for the masking claim: "the mean absolute
percentage error over the non-zero-true entries only" — the sum of
`|true - pred| / |true|` over exactly the pairs whose true value is nonzero,
divided by the number of nonzero entries of `y_true` (not by the total
length), times 100. -/
def mapeOverNonzeroTruth (yTrue yPred : List ℚ) : ℚ :=
  (((yTrue.zip yPred).filter (fun p => decide (p.1 ≠ 0))).map
      (fun p => |p.1 - p.2| / |p.1|)).sum
    / ((yTrue.filter (fun t => decide (t ≠ 0))).length : ℚ) * 100

/-- Model of `ModelEvaluator._accuracy_within_threshold`
(`src/src/evaluation/metrics.py` lines 145-168): mask out zero-true entries
(returning `0.0` when nothing survives), then the percentage of masked pairs
whose relative error `|((t - p) / t)|` is `≤ threshold`. -/
def accuracy_within_threshold (yTrue yPred : List ℚ) (threshold : ℚ) : ℚ :=
  if (yTrue.filter (fun t => decide (t ≠ 0))).isEmpty then 0
  else
    let masked := (yTrue.zip yPred).filter (fun p => decide (p.1 ≠ 0))
    ((masked.filter
        (fun p => decide (|(p.1 - p.2) / p.1| ≤ threshold))).length : ℚ)
      / (masked.length : ℚ) * 100

/-- Model of `ModelEvaluator._accuracy_within_absolute_threshold`
(`src/src/evaluation/metrics.py` lines 170-185): percentage of pairs with
`|t - p| ≤ threshold`, over all pairs (no masking). -/
def accuracy_within_absolute_threshold (yTrue yPred : List ℚ)
    (threshold : ℚ) : ℚ :=
  (((yTrue.zip yPred).filter
      (fun p => decide (|p.1 - p.2| ≤ threshold))).length : ℚ)
    / ((yTrue.zip yPred).length : ℚ) * 100

/-- Model of `sklearn.metrics.r2_score` on one output (as called at
`src/src/evaluation/metrics.py` line 204):
`1 - ss_res / ss_tot` with `ss_res = Σ (t - p)²`, `ss_tot = Σ (t - mean t)²`;
for constant `y_true` (`ss_tot = 0`) sklearn returns `1.0` for a perfect fit
and `0.0` otherwise (`force_finite=True` default); with fewer than two
samples the score is undefined (`none`). -/
def r2ScoreOf (yTrue yPred : List ℚ) : ℚ :=
  let m := yTrue.sum / (yTrue.length : ℚ)
  let ssRes := ((yTrue.zip yPred).map (fun p => (p.1 - p.2) ^ 2)).sum
  let ssTot := (yTrue.map (fun t => (t - m) ^ 2)).sum
  if ssTot == 0 then (if ssRes == 0 then 1 else 0)
  else 1 - ssRes / ssTot

/-- The guard for fewer than two samples, where sklearn's R² is undefined. -/
def r2_score (yTrue yPred : List ℚ) : Option ℚ :=
  if yTrue.length < 2 then none else some (r2ScoreOf yTrue yPred)

/-- Model of `ModelEvaluator._overall_accuracy_score`
(`src/src/evaluation/metrics.py` lines 187-215): the weighted combination
`0.3 * acc_10_pct + 0.2 * acc_20_pct + 0.3 * acc_10_units +
0.2 * max(0, min(100, r2 * 100))`. -/
def overall_accuracy_score (yTrue yPred : List ℚ) : Option ℚ :=
  (r2_score yTrue yPred).map (fun r2 =>
    let acc10pct := accuracy_within_threshold yTrue yPred (1/10)
    let acc20pct := accuracy_within_threshold yTrue yPred (2/10)
    let acc10units := accuracy_within_absolute_threshold yTrue yPred 10
    let r2contribution := max 0 (min 100 (r2 * 100))
    3/10 * acc10pct + 2/10 * acc20pct + 3/10 * acc10units +
      2/10 * r2contribution)

/-- Model of `pandas.Series.pct_change(d)` as used in
`DataQualityEnhancer.create_lag_difference_features`
(`src/src/preprocessing/data_quality.py` line 311): entry `i` is
`(x[i] - x[i-d]) / x[i-d]`, dividing by the raw lagged value with **no**
epsilon guard; entries whose lag reaches before the start are NaN, and a
zero lagged value yields Inf (or NaN for `0/0`).  Non-finite results are
`none`. -/
def pct_change (d : ℕ) (col : List ℚ) : List (Option ℚ) :=
  (List.range col.length).map (fun i =>
    if i < d then none
    else if col.getD (i - d) 0 == 0 then none
    else some ((col.getD i 0 - col.getD (i - d) 0) / col.getD (i - d) 0))

/-- Model of `df['O3_forecast'] / (df['NO2_forecast'].shift(lag) + 1e-6)` —
`create_lag_difference_features` lines 320-321: the shifted head entries are
NaN (`none`), and the division is non-finite only if the epsilon-guarded
denominator is exactly zero. -/
def lag_ratio_eps (num den : List ℚ) (lag : ℕ) (eps : ℚ) :
    List (Option ℚ) :=
  (List.range num.length).map (fun i =>
    if i < lag then none
    else if den.getD (i - lag) 0 + eps == 0 then none
    else some (num.getD i 0 / (den.getD (i - lag) 0 + eps)))

/-- Model of `NO2_satellite / (HCHO_satellite + 1e-8)` pointwise —
`FeatureEngineer.create_satellite_features` line 210
(`NO2_HCHO_ratio_alt`); non-finite only when the guarded denominator is
zero. -/
def ratio_alt_feature (a b : ℚ) : Option ℚ :=
  if b + 1/100000000 == 0 then none else some (a / (b + 1/100000000))

/-- Model of `1 / (ratio_satellite + 1e-8)` — `create_satellite_features` line 202
(`ratio_satellite_inv`). -/
def ratio_inv_feature (x : ℚ) : Option ℚ :=
  if x + 1/100000000 == 0 then none else some (1 / (x + 1/100000000))

/-- Finiteness of `np.log` at a rational argument: finite iff the argument
is positive (`np.log(0) = -inf`, negative arguments give NaN).  The log
features of `create_satellite_features` (lines 191, 196, 201) apply `np.log`
to `column + 1e-8`; only this finiteness aspect is modelled, which is all
the epsilon-guard claim concerns. -/
def npLogIsFinite (x : ℚ) : Bool :=
  decide (0 < x)

/-- The dataframe columns read and written by
`FeatureEngineer.create_meteorological_features`
(`src/src/preprocessing/feature_engineering.py` lines 33-175). -/
inductive Col where
  | u_forecast | v_forecast | w_forecast | T_forecast | q_forecast
  | pressure | p_forecast | hour | month | day_of_year
  | wind_speed | wind_direction | wind_dir_N | wind_dir_E
  | wind_speed_category | wind_power | wind_shear
  | vertical_wind_abs | vertical_stability | vertical_wind_squared
  | mixing_potential
  | temp_celsius | temp_category | temp_gradient | temp_gradient_abs
  | temp_sin_daily | temp_cos_daily
  | humidity_log | humidity_sqrt | relative_humidity_approx
  | dew_point_approx | vpd
  | atmospheric_stability | richardson_number
  | stability_parameter | convective_velocity
  | pressure_gradient | pressure_tendency
  | solar_elevation | solar_radiation_proxy | photochemical_potential
  | heat_index | wind_chill
  deriving DecidableEq, Repr

/-- Assigning `df[c] = ...`: the column is added if not already present. -/
def addCol (cs : List Col) (c : Col) : List Col :=
  if c ∈ cs then cs else cs ++ [c]

/-- Assigning several columns in order. -/
def addCols (cs : List Col) (new : List Col) : List Col :=
  new.foldl addCol cs

/-- The column-presence semantics of
`FeatureEngineer.create_meteorological_features`
(`src/src/preprocessing/feature_engineering.py` lines 33-175): every
`if '...' in df.columns` guard of the source in order, every column
assignment as a column addition, and every unguarded `df['...']` read as a
`KeyError` (`Except.error`) when the column is absent.  The three unguarded
reads of the source are `df['temp_celsius']` inside the
`temp_gradient`-guarded Richardson-number branch (line 128),
`df['temp_celsius']` in `photochemical_potential` inside the
`hour`/`month`-guarded solar block (line 164), and
`df['relative_humidity_approx']` in `heat_index` inside the
`temp_celsius`/`wind_speed`-guarded interaction block (line 169).  The
numeric values of the columns are irrelevant to the presence-and-raising
claims and are not modelled. -/
def createMeteorologicalFeaturesCols (cols0 : List Col) :
    Except Col (List Col) := do
  -- lines 46-67: wind block, guarded on u_forecast and v_forecast
  let c1 := if Col.u_forecast ∈ cols0 ∧ Col.v_forecast ∈ cols0 then
      addCols cols0 [.wind_speed, .wind_direction, .wind_dir_N, .wind_dir_E,
        .wind_speed_category, .wind_power, .wind_shear]
    else cols0
  -- lines 70-77: vertical wind block, nested wind_speed guard
  let c2 := if Col.w_forecast ∈ c1 then
      let t := addCols c1
        [.vertical_wind_abs, .vertical_stability, .vertical_wind_squared]
      if Col.wind_speed ∈ t then addCols t [.mixing_potential] else t
    else c1
  -- lines 80-100: temperature block
  let c3 := if Col.T_forecast ∈ c2 then
      addCols c2 [.temp_celsius, .temp_category, .temp_gradient,
        .temp_gradient_abs, .temp_sin_daily, .temp_cos_daily]
    else c2
  -- lines 103-120: humidity block, nested temp_celsius guard
  let c4 := if Col.q_forecast ∈ c3 then
      let t := addCols c3 [.humidity_log, .humidity_sqrt]
      if Col.temp_celsius ∈ t then
        addCols t [.relative_humidity_approx, .dew_point_approx, .vpd]
      else t
    else c3
  -- lines 123-128: stability block; the Richardson branch reads
  -- df['temp_celsius'] with only temp_gradient guarded
  let c5 ← if Col.wind_speed ∈ c4 ∧ Col.w_forecast ∈ c4 then
      let t := addCols c4 [.atmospheric_stability]
      if Col.temp_gradient ∈ t then
        if Col.temp_celsius ∈ t then
          Except.ok (addCols t [.richardson_number])
        else Except.error Col.temp_celsius
      else Except.ok t
    else Except.ok c4
  -- lines 131-137: boundary layer block
  let c6 := if Col.temp_celsius ∈ c5 ∧ Col.wind_speed ∈ c5 then
      let t := addCols c5 [.stability_parameter]
      if Col.w_forecast ∈ t then addCols t [.convective_velocity] else t
    else c5
  -- lines 140-143: pressure block
  let c7 := if Col.pressure ∈ c6 ∨ Col.p_forecast ∈ c6 then
      addCols c6 [.pressure_gradient, .pressure_tendency]
    else c6
  -- lines 146-164: solar block; photochemical_potential reads
  -- df['temp_celsius'] without a guard
  let c8 ← if Col.hour ∈ c7 ∧ Col.month ∈ c7 then
      let t := addCols c7 [.solar_elevation, .solar_radiation_proxy]
      if Col.temp_celsius ∈ t then
        Except.ok (addCols t [.photochemical_potential])
      else Except.error Col.temp_celsius
    else Except.ok c7
  -- lines 167-172: interaction block; heat_index reads
  -- df['relative_humidity_approx'] without a guard
  if Col.temp_celsius ∈ c8 ∧ Col.wind_speed ∈ c8 then
    if Col.relative_humidity_approx ∈ c8 then
      Except.ok (addCols c8 [.heat_index, .wind_chill])
    else Except.error Col.relative_humidity_approx
  else Except.ok c8

/-! ### Quantile monotonicity and capping bounds -/

lemma ratFloorNat_eq (q : ℚ) : ratFloorNat q = ⌊q⌋₊ := by
  rw [ratFloorNat, show q.floor = ⌊q⌋ from rfl]
  exact Int.floor_toNat q

/-- `npClip` lands in `[lo, hi]` whenever `lo ≤ hi`. -/
lemma npClip_mem {lo hi : ℚ} (h : lo ≤ hi) (x : ℚ) :
    lo ≤ npClip lo hi x ∧ npClip lo hi x ≤ hi := by
  unfold npClip
  dsimp only
  split_ifs <;> constructor <;> linarith

/-- Indexing with a default into a `(· ≤ ·)`-sorted list is monotone while
the larger index is in range. -/
lemma sorted_getD_mono {s : List ℚ} (hs : s.Sorted (· ≤ ·)) {i j : ℕ}
    (hij : i ≤ j) (hj : j < s.length) : s.getD i 0 ≤ s.getD j 0 := by
  have hi : i < s.length := lt_of_le_of_lt hij hj
  rw [List.getD_eq_getElem _ _ hi, List.getD_eq_getElem _ _ hj]
  exact hs.rel_get_of_le hij

/-- In a sorted list, each entry is at most its successor entry, where the
successor read uses the entry itself as the out-of-range default (the shape
`sortedInterp` uses). -/
lemma getD_succ_le {s : List ℚ} (hs : s.Sorted (· ≤ ·)) (i : ℕ)
    (hi : i < s.length) : s.getD i 0 ≤ s.getD (i + 1) (s.getD i 0) := by
  by_cases hr : i + 1 < s.length
  · rw [List.getD_eq_getElem s (s.getD i 0) hr]
    have h := sorted_getD_mono hs (Nat.le_succ i) hr
    rwa [List.getD_eq_getElem s 0 hr] at h
  · rw [List.getD_eq_default s (s.getD i 0) (by omega)]

/-- In a sorted list, the linear interpolation `sortedInterp` is monotone in
the position as long as the positions stay within `[0, length - 1]`. -/
lemma sortedInterp_mono {s : List ℚ} (hs : s.Sorted (· ≤ ·)) {pos pos' : ℚ}
    (h0 : 0 ≤ pos) (h01 : pos ≤ pos') (h1 : pos' ≤ (s.length : ℚ) - 1) :
    sortedInterp s pos ≤ sortedInterp s pos' := by
  have h0' : (0 : ℚ) ≤ pos' := le_trans h0 h01
  have hii' : ⌊pos⌋₊ ≤ ⌊pos'⌋₊ := Nat.floor_le_floor h01
  have hi'len : ⌊pos'⌋₊ < s.length := by
    have hq : (⌊pos'⌋₊ : ℚ) ≤ (s.length : ℚ) - 1 := le_trans (Nat.floor_le h0') h1
    have hq2 : ((⌊pos'⌋₊ + 1 : ℕ) : ℚ) ≤ (s.length : ℚ) := by push_cast; linarith
    have hq3 : ⌊pos'⌋₊ + 1 ≤ s.length := by exact_mod_cast hq2
    omega
  have hposle : (⌊pos⌋₊ : ℚ) ≤ pos := Nat.floor_le h0
  have hposlt : pos < (⌊pos⌋₊ : ℚ) + 1 := Nat.lt_floor_add_one pos
  have hposle' : (⌊pos'⌋₊ : ℚ) ≤ pos' := Nat.floor_le h0'
  simp only [sortedInterp, ratFloorNat_eq]
  rcases Nat.eq_or_lt_of_le hii' with heq | hlt
  · rw [← heq]
    have hAB : s.getD ⌊pos⌋₊ 0 ≤ s.getD (⌊pos⌋₊ + 1) (s.getD ⌊pos⌋₊ 0) :=
      getD_succ_le hs _ (by rw [heq]; exact hi'len)
    nlinarith [hAB, h01]
  · have hi1len : ⌊pos⌋₊ + 1 ≤ ⌊pos'⌋₊ := hlt
    have hi1lt : ⌊pos⌋₊ + 1 < s.length := lt_of_le_of_lt hi1len hi'len
    have hA : s.getD ⌊pos⌋₊ 0 ≤ s.getD (⌊pos⌋₊ + 1) 0 :=
      sorted_getD_mono hs (Nat.le_succ _) hi1lt
    have hstep : s.getD (⌊pos⌋₊ + 1) 0 ≤ s.getD ⌊pos'⌋₊ 0 :=
      sorted_getD_mono hs hi1len hi'len
    have hBd : s.getD (⌊pos⌋₊ + 1) (s.getD ⌊pos⌋₊ 0) = s.getD (⌊pos⌋₊ + 1) 0 := by
      rw [List.getD_eq_getElem s (s.getD ⌊pos⌋₊ 0) hi1lt,
        List.getD_eq_getElem s 0 hi1lt]
    have hB'd : s.getD ⌊pos'⌋₊ 0 ≤ s.getD (⌊pos'⌋₊ + 1) (s.getD ⌊pos'⌋₊ 0) :=
      getD_succ_le hs _ hi'len
    rw [hBd]
    have hup : s.getD ⌊pos⌋₊ 0 +
        (pos - (⌊pos⌋₊ : ℚ)) * (s.getD (⌊pos⌋₊ + 1) 0 - s.getD ⌊pos⌋₊ 0) ≤
        s.getD (⌊pos⌋₊ + 1) 0 := by nlinarith [hA, hposlt, hposle]
    have hdown : s.getD ⌊pos'⌋₊ 0 ≤ s.getD ⌊pos'⌋₊ 0 +
        (pos' - (⌊pos'⌋₊ : ℚ)) *
          (s.getD (⌊pos'⌋₊ + 1) (s.getD ⌊pos'⌋₊ 0) - s.getD ⌊pos'⌋₊ 0) := by
      nlinarith [hB'd, hposle']
    linarith [hup, hstep, hdown]

/-- `pandasQuantile` is monotone in the quantile level on a nonempty column. -/
lemma pandasQuantile_mono (l : List ℚ) (hne : l ≠ []) {q q' : ℚ}
    (h0 : 0 ≤ q) (hqq : q ≤ q') (h1 : q' ≤ 1) :
    pandasQuantile l q ≤ pandasQuantile l q' := by
  have hs : (l.insertionSort (· ≤ ·)).Sorted (· ≤ ·) :=
    List.sorted_insertionSort (· ≤ ·) l
  have hlen : (l.insertionSort (· ≤ ·)).length = l.length :=
    (List.perm_insertionSort (· ≤ ·) l).length_eq
  have hn : 1 ≤ l.length := List.length_pos.mpr hne
  have hn1 : (0 : ℚ) ≤ (l.length : ℚ) - 1 := by
    have h : (1 : ℚ) ≤ (l.length : ℚ) := by exact_mod_cast hn
    linarith
  unfold pandasQuantile
  apply sortedInterp_mono hs
  · positivity
  · exact mul_le_mul_of_nonneg_right hqq hn1
  · rw [hlen]
    nlinarith

/-- The IQR is nonnegative: `Q1 ≤ Q3` on any nonempty column. -/
lemma q1_le_q3 (col : List ℚ) (hne : col ≠ []) :
    pandasQuantile col (1/4) ≤ pandasQuantile col (3/4) :=
  pandasQuantile_mono col hne (by norm_num) (by norm_num) (by norm_num)

/-- C5: after `detect_and_handle_outliers` with `method='iqr'` and factor `k ≥ 0`
on any nonempty column, every processed value lies within
`[Q1 - k*IQR, Q3 + k*IQR]` computed from that column, and the row count is
unchanged (values are capped by `np.clip`, never dropped); in particular, for
the column `[10, 12, 11, 13, 1000]` with factor `1.5`, the value `1000` is
capped down to `Q3 + 1.5*IQR = 16` and the other four values are unchanged. -/
theorem outlier_capping_within_iqr_bounds (col : List ℚ) (k : ℚ)
    (hne : col ≠ []) (hk : 0 ≤ k) :
    (detect_and_handle_outliers_col k col).length = col.length ∧
    (∀ v ∈ detect_and_handle_outliers_col k col,
      pandasQuantile col (1/4) -
          k * (pandasQuantile col (3/4) - pandasQuantile col (1/4)) ≤ v ∧
      v ≤ pandasQuantile col (3/4) +
          k * (pandasQuantile col (3/4) - pandasQuantile col (1/4))) ∧
    detect_and_handle_outliers_col (3/2) [10, 12, 11, 13, 1000] =
      [10, 12, 11, 13, 16] := by
  refine ⟨List.length_map _ _, ?_, by
    norm_num [detect_and_handle_outliers_col, iqrBounds, npClip, pandasQuantile,
      sortedInterp, ratFloorNat, List.insertionSort, List.orderedInsert,
      Rat.floor, List.getD, Int.toNat]⟩
  intro v hv
  have hq13 := q1_le_q3 col hne
  have hlohi : pandasQuantile col (1/4) -
      k * (pandasQuantile col (3/4) - pandasQuantile col (1/4)) ≤
      pandasQuantile col (3/4) +
      k * (pandasQuantile col (3/4) - pandasQuantile col (1/4)) := by
    nlinarith
  simp only [detect_and_handle_outliers_col, iqrBounds, List.mem_map] at hv
  obtain ⟨x, _, rfl⟩ := hv
  exact npClip_mem hlohi x

/-- Witness for the outlier-capping theorem at the spec's known-outlier
scenario: column `[10, 12, 11, 13, 1000]` with factor `1.5` keeps its five
rows and becomes `[10, 12, 11, 13, 16]`. -/
theorem outlier_capping_within_iqr_bounds_witness :
    (detect_and_handle_outliers_col (3/2) [10, 12, 11, 13, 1000]).length = 5 ∧
    detect_and_handle_outliers_col (3/2) [10, 12, 11, 13, 1000] =
      [10, 12, 11, 13, 16] := by
  have h := outlier_capping_within_iqr_bounds [10, 12, 11, 13, 1000] (3/2)
    (by simp) (by norm_num)
  exact ⟨by rw [h.1]; norm_num, h.2.2⟩

/-- C1 (code bug): after a fitting pass on `[0,1,2,3,100]` (factor 2.0, so the
fitted bounds are `(-3, 7)`), `transform_new_data` applied to
`[1000,1001,1002,1003,1004]` recomputes the outlier bounds from the *new*
data's quantiles (overwriting the stored bounds with `(997, 1007)`) and caps
with those, leaving every value unchanged — although capping with the stored
fitted bounds would have produced `[7,7,7,7,7]`.  Moreover the capping step of
`transform_new_data` ignores the fitted state entirely: its output is the same
for any two incoming enhancer states. -/
theorem transform_new_data_refits_outlier_bounds :
    (enhance_data_quality initEnhancerState [0, 1, 2, 3, 100]).1.outlierBounds
        = some (-3, 7) ∧
    (transform_new_data (enhance_data_quality initEnhancerState
        [0, 1, 2, 3, 100]).1 [1000, 1001, 1002, 1003, 1004]).1.outlierBounds
        = some (997, 1007) ∧
    (detect_and_handle_outliers (enhance_data_quality initEnhancerState
        [0, 1, 2, 3, 100]).1 2 [1000, 1001, 1002, 1003, 1004]).2
        = [1000, 1001, 1002, 1003, 1004] ∧
    ([1000, 1001, 1002, 1003, 1004] : List ℚ).map (npClip (-3) 7)
        = [7, 7, 7, 7, 7] ∧
    (∀ s₁ s₂ : EnhancerState, ∀ f : ℚ, ∀ c : List ℚ,
      (detect_and_handle_outliers s₁ f c).2 =
      (detect_and_handle_outliers s₂ f c).2) := by
  refine ⟨?_, ?_, ?_, ?_, fun s₁ s₂ f c => rfl⟩ <;>
    norm_num [enhance_data_quality, transform_new_data,
      detect_and_handle_outliers, robustScalerFit, robustScalerTransform,
      initEnhancerState, iqrBounds, npClip, pandasQuantile, sortedInterp,
      ratFloorNat, List.insertionSort, List.orderedInsert, Rat.floor,
      List.getD, Int.toNat]

/-! ### Chronological split -/

/-- A `(· ≤ ·)`-sorted list with no duplicates is `(· < ·)`-sorted. -/
lemma sorted_lt_of_sorted_le_nodup {l : List ℚ} (hs : l.Pairwise (· ≤ ·))
    (hn : l.Nodup) : l.Pairwise (· < ·) :=
  (hs.and hn).imp (fun h => lt_of_le_of_ne h.1 h.2)

/-- Elements of the first part of a `<`-pairwise concatenation are below all
elements of the second part. -/
lemma pairwise_lt_split {l₁ l₂ : List ℚ} (h : (l₁ ++ l₂).Pairwise (· < ·)) :
    ∀ a ∈ l₁, ∀ b ∈ l₂, a < b :=
  (List.pairwise_append.mp h).2.2

/-- C2 (amended): for nonnegative ratio triples and a frame whose timestamps
are pairwise distinct, `split_time_series` sorts the frame chronologically
and cuts it into three contiguous, non-overlapping segments whose
concatenation is the sorted frame (never shuffled), with every train
timestamp strictly below every validation timestamp, every validation
timestamp strictly below every test timestamp, and every train timestamp
strictly below every test timestamp; a ratio triple whose sum is off by at
least the `1e-6` tolerance is rejected by the assertion, and one within
tolerance always yields a split. -/
theorem split_time_series_chronological (ts : List ℚ) (tr vr te : ℚ)
    (htr : 0 ≤ tr) (hvr : 0 ≤ vr) (hte : 0 ≤ te) (hnd : ts.Nodup) :
    (¬ |tr + vr + te - 1| < 1/1000000 → split_time_series ts tr vr te = none) ∧
    (|tr + vr + te - 1| < 1/1000000 → (split_time_series ts tr vr te).isSome) ∧
    (∀ train val test,
      split_time_series ts tr vr te = some (train, val, test) →
        train ++ val ++ test = ts.insertionSort (· ≤ ·) ∧
        (∀ a ∈ train, ∀ b ∈ val, a < b) ∧
        (∀ a ∈ val, ∀ b ∈ test, a < b) ∧
        (∀ a ∈ train, ∀ b ∈ test, a < b)) := by
  refine ⟨fun h => by simp only [split_time_series, if_neg h],
    fun h => by simp only [split_time_series, if_pos h, Option.isSome_some], ?_⟩
  intro train val test hsome
  by_cases h : |tr + vr + te - 1| < 1/1000000
  swap
  · simp only [split_time_series, if_neg h] at hsome
    exact Option.noConfusion hsome
  simp only [split_time_series, if_pos h, Option.some_inj] at hsome
  set s := ts.insertionSort (· ≤ ·) with hsdef
  set tE := ratFloorNat ((s.length : ℚ) * tr) with htE
  set vE := ratFloorNat ((s.length : ℚ) * (tr + vr)) with hvE
  have htEvE : tE ≤ vE := by
    rw [htE, hvE, ratFloorNat_eq, ratFloorNat_eq]
    exact Nat.floor_le_floor
      (mul_le_mul_of_nonneg_left (by linarith) (Nat.cast_nonneg s.length))
  rw [Prod.ext_iff, Prod.ext_iff] at hsome
  obtain ⟨hA, hB, hC⟩ := hsome
  have htr' : train = s.take tE := hA.symm
  have hv' : val = (s.take vE).drop tE := hB.symm
  have hte' : test = s.drop vE := hC.symm
  have hval : val = (s.drop tE).take (vE - tE) := by
    rw [hv', List.drop_take]
  have htest : test = (s.drop tE).drop (vE - tE) := by
    rw [hte', List.drop_drop]
    congr 1
    omega
  have hconcat : train ++ val ++ test = s := by
    rw [htr', hval, htest, List.append_assoc, List.take_append_drop,
      List.take_append_drop]
  have hsorted : s.Pairwise (· < ·) := by
    apply sorted_lt_of_sorted_le_nodup (List.sorted_insertionSort (· ≤ ·) ts)
    exact (List.perm_insertionSort (· ≤ ·) ts).nodup_iff.mpr hnd
  have hsplit1 : ∀ a ∈ train, ∀ b ∈ val ++ test, a < b := by
    apply pairwise_lt_split
    rw [← List.append_assoc, hconcat]
    exact hsorted
  have hrest : (val ++ test).Pairwise (· < ·) := by
    have : (train ++ (val ++ test)).Pairwise (· < ·) := by
      rw [← List.append_assoc, hconcat]; exact hsorted
    exact (List.pairwise_append.mp this).2.1
  refine ⟨hconcat, ?_, pairwise_lt_split hrest, ?_⟩
  · intro a ha b hb
    exact hsplit1 a ha b (List.mem_append_left _ hb)
  · intro a ha b hb
    exact hsplit1 a ha b (List.mem_append_right _ hb)

/-- C2 (counterexample): on a frame with duplicated timestamps
`[5, 5, 5, 5]` and the valid ratio triple `(0.5, 0.25, 0.25)`, the split is
`([5, 5], [5], [5])`, and it is not the case that every train timestamp is
strictly less than every validation timestamp. -/
theorem split_time_series_duplicates_break_strict_order :
    split_time_series [5, 5, 5, 5] (1/2) (1/4) (1/4) =
      some ([5, 5], [5], [5]) ∧
    ¬ (∀ a ∈ ([5, 5] : List ℚ), ∀ b ∈ ([5] : List ℚ), a < b) := by
  constructor
  · norm_num [split_time_series, ratFloorNat, Rat.floor, List.insertionSort,
      List.orderedInsert, Int.toNat]
  · intro hcontra
    exact lt_irrefl (5 : ℚ) (hcontra 5 (by norm_num) 5 (by norm_num))

/-- Witness for the chronological-split theorem at the concrete unsorted
frame `[3, 1, 2, 4]` with ratios `(0.5, 0.25, 0.25)`: the split succeeds and
gives `([1, 2], [3], [4])` with the three strict-ordering properties. -/
theorem split_time_series_chronological_witness :
    ([1, 2] ++ [3] ++ [4] : List ℚ) =
        List.insertionSort (· ≤ ·) [3, 1, 2, 4] ∧
    (∀ a ∈ ([1, 2] : List ℚ), ∀ b ∈ ([3] : List ℚ), a < b) ∧
    (∀ a ∈ ([3] : List ℚ), ∀ b ∈ ([4] : List ℚ), a < b) ∧
    (∀ a ∈ ([1, 2] : List ℚ), ∀ b ∈ ([4] : List ℚ), a < b) :=
  (split_time_series_chronological [3, 1, 2, 4] (1/2) (1/4) (1/4)
      (by norm_num) (by norm_num) (by norm_num) (by decide)).2.2
    [1, 2] [3] [4]
    (by norm_num [split_time_series, ratFloorNat, Rat.floor,
      List.insertionSort, List.orderedInsert, Int.toNat])

/-! ### Sequence assembly -/

/-- C3: for a frame with at least `L + H` rows whose rows have `F` feature
values and `T` target values, `create_sequences` produces exactly
`N - L - H + 1` sequences; every `X` window has `L` rows of `F` features and
every `y` window has `H` rows of `T` targets. -/
theorem create_sequences_shape (rows : List (List ℚ × List ℚ)) (L H F T : ℕ)
    (hLH : L + H ≤ rows.length)
    (hrow : ∀ r ∈ rows, r.1.length = F ∧ r.2.length = T) :
    (create_sequences rows L H).1.length = rows.length - L - H + 1 ∧
    (create_sequences rows L H).2.length = rows.length - L - H + 1 ∧
    (∀ x ∈ (create_sequences rows L H).1,
      x.length = L ∧ ∀ fr ∈ x, fr.length = F) ∧
    (∀ y ∈ (create_sequences rows L H).2,
      y.length = H ∧ ∀ tr ∈ y, tr.length = T) := by
  have hn : (((rows.length : ℤ) - L - H) + 1).toNat = rows.length - L - H + 1 := by
    omega
  refine ⟨by simp [create_sequences, hn], by simp [create_sequences, hn], ?_, ?_⟩
  · intro x hx
    simp only [create_sequences, List.mem_map, List.mem_range, hn] at hx
    obtain ⟨i, hi, rfl⟩ := hx
    constructor
    · rw [List.length_map, List.length_take_of_le]
      rw [List.length_drop]
      omega
    · intro fr hfr
      simp only [List.mem_map] at hfr
      obtain ⟨r, hr, rfl⟩ := hfr
      exact (hrow r (List.mem_of_mem_drop (List.mem_of_mem_take hr))).1
  · intro y hy
    simp only [create_sequences, List.mem_map, List.mem_range, hn] at hy
    obtain ⟨i, hi, rfl⟩ := hy
    constructor
    · rw [List.length_map, List.length_take_of_le]
      rw [List.length_drop]
      omega
    · intro tr htr
      simp only [List.mem_map] at htr
      obtain ⟨r, hr, rfl⟩ := htr
      exact (hrow r (List.mem_of_mem_drop (List.mem_of_mem_take hr))).2

/-- Witness for the sequence-shape theorem: a frame of 100 rows with
`sequence_length = 24` and `forecast_horizon = 1` yields exactly 76
sequences on both the `X` and the `y` side. -/
theorem create_sequences_shape_witness :
    (create_sequences (List.replicate 100 ([0], [0])) 24 1).1.length = 76 ∧
    (create_sequences (List.replicate 100 ([0], [0])) 24 1).2.length = 76 := by
  have h := create_sequences_shape (List.replicate 100 ([(0 : ℚ)], [(0 : ℚ)]))
    24 1 1 1 (by simp)
    (by
      intro r hr
      rw [List.eq_of_mem_replicate hr]
      exact ⟨rfl, rfl⟩)
  refine ⟨?_, ?_⟩
  · rw [h.1]; simp
  · rw [h.2.1]; simp

/-- C4 (code bug): a frame with fewer rows than
`sequence_length + forecast_horizon` (here 10 rows, `L = 24`, `H = 1`) makes
`create_sequences` return empty `X` and `y` arrays — the `range` bound is
negative so the loop never runs — instead of raising an error. -/
theorem create_sequences_insufficient_rows_return_empty :
    create_sequences (List.replicate 10 ([0], [0])) 24 1 = ([], []) := by
  rfl

/-! ### Evaluation metrics -/

/-- Every pair of a list zipped with itself has equal components. -/
lemma mem_zip_self {l : List ℚ} {p : ℚ × ℚ} (hp : p ∈ l.zip l) : p.1 = p.2 := by
  induction l with
  | nil => simp at hp
  | cons a t ih =>
    rw [List.zip_cons_cons] at hp
    rcases List.mem_cons.mp hp with h | h
    · rw [h]
    · exact ih h

/-- Every member of a list appears as a diagonal pair in its self-zip. -/
lemma self_mem_zip_self {l : List ℚ} {a : ℚ} (ha : a ∈ l) :
    (a, a) ∈ l.zip l := by
  induction l with
  | nil => simp at ha
  | cons b t ih =>
    rw [List.zip_cons_cons]
    rcases List.mem_cons.mp ha with h | h
    · rw [h]; exact List.mem_cons_self ..
    · exact List.mem_cons_of_mem _ (ih h)

/-- For equal-length lists, filtering the zip on the first component keeps
as many pairs as filtering the first list itself. -/
lemma length_filter_zip_fst {yt yp : List ℚ} (h : yt.length = yp.length) :
    ((yt.zip yp).filter (fun p => decide (p.1 ≠ 0))).length =
      (yt.filter (fun t => decide (t ≠ 0))).length := by
  induction yt generalizing yp with
  | nil => simp
  | cons a l ih =>
    cases yp with
    | nil => simp at h
    | cons b m =>
      have h' : l.length = m.length := by simpa using h
      rw [List.zip_cons_cons, List.filter_cons, List.filter_cons]
      by_cases ha : a = 0
      · rw [if_neg (by simp [ha]), if_neg (by simp [ha])]
        exact ih h'
      · rw [if_pos (by simp [ha]), if_pos (by simp [ha])]
        simp only [List.length_cons]
        rw [ih h']

/-- C9: MAPE over a `y_true` containing a zero entry (but not only zeros)
does not hit the `np.inf` sentinel; the zero-true entries are excluded from
the mean, which is taken over exactly the non-zero-true pairs and divided by
their count, not by the total length. -/
theorem mape_masks_zero_truth (yTrue yPred : List ℚ)
    (hlen : yTrue.length = yPred.length) (hzero : (0 : ℚ) ∈ yTrue)
    (hnz : ∃ t ∈ yTrue, t ≠ 0) :
    mean_absolute_percentage_error yTrue yPred =
      .finite (mapeOverNonzeroTruth yTrue yPred) := by
  obtain ⟨t, ht, htnz⟩ := hnz
  have hfil : ¬ (yTrue.filter (fun t => decide (t ≠ 0))).isEmpty := by
    simp only [List.isEmpty_iff, List.filter_eq_nil_iff]
    push_neg
    exact ⟨t, ht, by simpa using htnz⟩
  unfold mean_absolute_percentage_error
  rw [if_neg hfil]
  have hcount := length_filter_zip_fst hlen
  have hmap : ((yTrue.zip yPred).filter (fun p => decide (p.1 ≠ 0))).map
      (fun p => |(p.1 - p.2) / p.1|) =
      ((yTrue.zip yPred).filter (fun p => decide (p.1 ≠ 0))).map
      (fun p => |p.1 - p.2| / |p.1|) := by
    apply List.map_congr_left
    intro p _
    rw [abs_div]
  simp only [mapeOverNonzeroTruth]
  rw [hmap, hcount]

/-- Witness for the MAPE masking theorem: `y_true = [0, 5]`,
`y_pred = [0, 10]` has a zero and a nonzero true entry; the zero entry is
masked out and the result is `|5 - 10| / 5 * 100 = 100`, not `50`. -/
theorem mape_masks_zero_truth_witness :
    mean_absolute_percentage_error [0, 5] [0, 10] =
      .finite (mapeOverNonzeroTruth [0, 5] [0, 10]) ∧
    mapeOverNonzeroTruth [0, 5] [0, 10] = 100 := by
  refine ⟨mape_masks_zero_truth [0, 5] [0, 10] rfl (by norm_num)
    ⟨5, by norm_num, by norm_num⟩, ?_⟩
  norm_num [mapeOverNonzeroTruth, List.filter]

/-- C10: when every entry of `y_true` is zero, the MAPE computation returns
the `np.inf` sentinel rather than raising a division-by-zero error or
producing NaN. -/
theorem mape_all_zero_truth_is_posInf (yTrue yPred : List ℚ)
    (hall : ∀ t ∈ yTrue, t = 0) :
    mean_absolute_percentage_error yTrue yPred = .posInf := by
  unfold mean_absolute_percentage_error
  rw [if_pos]
  simp only [List.isEmpty_iff, List.filter_eq_nil_iff]
  intro a ha
  simp [hall a ha]

/-- Witness for the all-zero MAPE theorem at `y_true = [0, 0]`,
`y_pred = [1, 2]`. -/
theorem mape_all_zero_truth_is_posInf_witness :
    mean_absolute_percentage_error [0, 0] [1, 2] = .posInf :=
  mape_all_zero_truth_is_posInf [0, 0] [1, 2] (by norm_num)

/-- Relative threshold accuracy is exactly 100 on a perfect prediction, as
long as some true value is nonzero. -/
lemma accuracy_within_threshold_perfect (yt : List ℚ) {t : ℚ} (ht : t ∈ yt)
    (htnz : t ≠ 0) {θ : ℚ} (hθ : 0 ≤ θ) :
    accuracy_within_threshold yt yt θ = 100 := by
  have hfil : ¬ (yt.filter (fun x => decide (x ≠ 0))).isEmpty := by
    simp only [List.isEmpty_iff, List.filter_eq_nil_iff]
    push_neg
    exact ⟨t, ht, by simpa using htnz⟩
  unfold accuracy_within_threshold
  rw [if_neg hfil]
  dsimp only
  have hall : ((yt.zip yt).filter (fun p => decide (p.1 ≠ 0))).filter
      (fun p => decide (|(p.1 - p.2) / p.1| ≤ θ)) =
      (yt.zip yt).filter (fun p => decide (p.1 ≠ 0)) := by
    apply List.filter_eq_self.mpr
    intro p hp
    have hps : p.1 = p.2 := mem_zip_self (List.mem_of_mem_filter hp)
    simp [hps, hθ]
  rw [hall]
  have hmem : (t, t) ∈ (yt.zip yt).filter (fun p => decide (p.1 ≠ 0)) :=
    List.mem_filter.mpr ⟨self_mem_zip_self ht, by simpa using htnz⟩
  have hlen : (((yt.zip yt).filter
      (fun p => decide (p.1 ≠ 0))).length : ℚ) ≠ 0 := by
    have := List.length_pos.mpr (List.ne_nil_of_mem hmem)
    positivity
  rw [div_self hlen, one_mul]

/-- Absolute threshold accuracy is exactly 100 on a perfect prediction over
a nonempty frame. -/
lemma accuracy_within_absolute_threshold_perfect (yt : List ℚ)
    (hne : yt ≠ []) {θ : ℚ} (hθ : 0 ≤ θ) :
    accuracy_within_absolute_threshold yt yt θ = 100 := by
  unfold accuracy_within_absolute_threshold
  have hall : (yt.zip yt).filter (fun p => decide (|p.1 - p.2| ≤ θ)) =
      yt.zip yt := by
    apply List.filter_eq_self.mpr
    intro p hp
    have hps : p.1 = p.2 := mem_zip_self hp
    simp [hps, hθ]
  rw [hall]
  have hyt : (yt.length : ℚ) ≠ 0 := by
    have := List.length_pos.mpr hne
    positivity
  have h1 : (yt.zip yt).length = yt.length := by
    rw [List.length_zip]; omega
  rw [h1, div_self hyt, one_mul]

/-- sklearn's R² of a perfect prediction is 1, also in the constant-truth
case. -/
lemma r2ScoreOf_self (yt : List ℚ) : r2ScoreOf yt yt = 1 := by
  have hres : ((yt.zip yt).map (fun p => (p.1 - p.2) ^ 2)).sum = 0 := by
    apply List.sum_eq_zero
    intro x hx
    simp only [List.mem_map] at hx
    obtain ⟨p, hp, rfl⟩ := hx
    rw [mem_zip_self hp]
    ring
  simp only [r2ScoreOf, hres]
  by_cases h : (yt.map (fun t => (t - yt.sum / (yt.length : ℚ)) ^ 2)).sum = 0
  · rw [if_pos (by simpa using h)]
    norm_num
  · rw [if_neg (by simpa using h)]
    simp

/-- C6 (amended): for arrays of at least two samples (so that R² is
defined), `overall_accuracy_score` equals the weighted sum
`0.3*(% within 10% relative) + 0.2*(% within 20% relative) +
0.3*(% within 10 absolute units) + 0.2*(R² * 100 clamped to [0, 100])`; and
when `y_pred` equals `y_true` everywhere **and some true value is nonzero**,
the score is exactly 100.  (With an all-zero `y_true` the relative-accuracy
terms are 0 and a perfect prediction scores only 50 — see the
counterexample.) -/
theorem overall_accuracy_weighted_formula (yTrue yPred : List ℚ)
    (hlen : 2 ≤ yTrue.length) :
    overall_accuracy_score yTrue yPred = some (
      3/10 * accuracy_within_threshold yTrue yPred (1/10) +
      2/10 * accuracy_within_threshold yTrue yPred (2/10) +
      3/10 * accuracy_within_absolute_threshold yTrue yPred 10 +
      2/10 * max 0 (min 100 (r2ScoreOf yTrue yPred * 100))) ∧
    ((∃ t ∈ yTrue, t ≠ 0) → overall_accuracy_score yTrue yTrue = some 100) := by
  constructor
  · simp only [overall_accuracy_score, r2_score,
      if_neg (by omega : ¬ yTrue.length < 2)]
    rfl
  · rintro ⟨t, ht, htnz⟩
    have h1 := accuracy_within_threshold_perfect yTrue ht htnz
      (θ := 1/10) (by norm_num)
    have h2 := accuracy_within_threshold_perfect yTrue ht htnz
      (θ := 2/10) (by norm_num)
    have h3 := accuracy_within_absolute_threshold_perfect yTrue
      (List.ne_nil_of_mem ht) (θ := 10) (by norm_num)
    have h4 := r2ScoreOf_self yTrue
    simp only [overall_accuracy_score, r2_score,
      if_neg (by omega : ¬ yTrue.length < 2), Option.map_some, h1, h2, h3, h4]
    norm_num

/-- C6 (counterexample): with `y_true = y_pred = [0, 0]` (a perfect
prediction), the relative-accuracy terms are 0 (everything is masked out and
the code returns 0.0), the absolute term is 100, R² is 1, and the overall
score is `0.3*0 + 0.2*0 + 0.3*100 + 0.2*100 = 50`, not 100. -/
theorem overall_accuracy_not_100_on_all_zero_truth :
    overall_accuracy_score [0, 0] [0, 0] = some 50 ∧
    overall_accuracy_score [0, 0] [0, 0] ≠ some 100 := by
  have h : overall_accuracy_score [0, 0] [0, 0] = some 50 := by
    norm_num [overall_accuracy_score, r2_score, r2ScoreOf,
      accuracy_within_threshold, accuracy_within_absolute_threshold,
      List.filter]
  exact ⟨h, by rw [h]; simp⟩

/-- Witness for the overall-accuracy theorem at the spec's perfect-prediction
scenario `y_true = y_pred = [50, 52, 48]`: the score is exactly 100. -/
theorem overall_accuracy_weighted_formula_witness :
    overall_accuracy_score [50, 52, 48] [50, 52, 48] = some 100 :=
  (overall_accuracy_weighted_formula [50, 52, 48] [50, 52, 48]
      (by norm_num)).2 ⟨50, by norm_num, by norm_num⟩

/-! ### Epsilon guards and graceful degradation -/

/-- C7 (counterexample): `pct_change` divides by the raw lagged value with
no epsilon: on the column `[0, 1]` the entry at index 1 — inside the valid
window, not a head-NaN — is non-finite (`(1 - 0)/0` is `inf` in numpy)
because the denominator-defining column contains an exact zero, while on
`[1, 2]`, which has no zero, the same position is finite. -/
theorem pct_change_inf_on_zero_lagged_value :
    pct_change 1 [0, 1] = [none, none] ∧
    pct_change 1 [1, 2] = [none, some 1] := by
  constructor <;> norm_num [pct_change, List.range_succ, List.getD]

/-- C7 (amended): the explicitly epsilon-guarded features of the cited
builders are finite at exact zeros of their denominator-defining columns —
the satellite inverse and alternative ratios (`+ 1e-8`), the log features
(whose argument `0 + 1e-8` is inside `np.log`'s finite domain), and the
cross-pollutant lag ratios (`+ 1e-6`) at any in-window position whose lagged
denominator value is zero; the unguarded `pct_change` features are the
exception (see the counterexample). -/
theorem epsilon_guarded_features_finite_on_zero (a : ℚ) (num den : List ℚ)
    (lag i : ℕ) (hlag : lag ≤ i) (hi : i < num.length)
    (hden : den.getD (i - lag) 0 = 0) :
    (ratio_alt_feature a 0).isSome ∧
    (ratio_inv_feature 0).isSome ∧
    npLogIsFinite (0 + 1/100000000) = true ∧
    ((lag_ratio_eps num den lag (1/1000000)).getD i none).isSome := by
  refine ⟨by norm_num [ratio_alt_feature], by norm_num [ratio_inv_feature],
    by norm_num [npLogIsFinite], ?_⟩
  have hmaplen : i < ((List.range num.length).map (fun j =>
      if j < lag then none
      else if den.getD (j - lag) 0 + 1/1000000 == 0 then none
      else some (num.getD j 0 / (den.getD (j - lag) 0 + 1/1000000)))).length := by
    simpa using hi
  rw [lag_ratio_eps, List.getD_eq_getElem _ _ hmaplen]
  rw [List.getElem_map, List.getElem_range]
  rw [if_neg (by omega), if_neg (by rw [hden]; norm_num)]
  rfl

/-- Witness for the epsilon-guard theorem: `num = [3, 4]`, `den = [0, 5]`,
`lag = 1`, position `i = 1` has lagged denominator value exactly `0`. -/
theorem epsilon_guarded_features_finite_on_zero_witness :
    (ratio_alt_feature 3 0).isSome ∧
    (ratio_inv_feature 0).isSome ∧
    npLogIsFinite (0 + 1/100000000) = true ∧
    ((lag_ratio_eps [3, 4] [0, 5] 1 (1/1000000)).getD 1 none).isSome :=
  epsilon_guarded_features_finite_on_zero 3 [3, 4] [0, 5] 1 1
    (by norm_num) (by norm_num) rfl

/-- C8 (code bug): the meteorological feature builder's guards skip exactly
the derivations whose source columns are absent — a frame with
`w_forecast`, `T_forecast`, `q_forecast` but no wind components gets all its
vertical/temperature/humidity features and **no** wind-derived feature, with
no defaults injected — but two unguarded column reads can raise: a frame
with `hour` and `month` but no `T_forecast` raises `KeyError('temp_celsius')`
at the `photochemical_potential` assignment, and a frame with wind and
temperature but no humidity raises `KeyError('relative_humidity_approx')` at
the `heat_index` assignment. -/
theorem met_features_unguarded_reads_raise :
    createMeteorologicalFeaturesCols [Col.hour, Col.month] =
      Except.error Col.temp_celsius ∧
    createMeteorologicalFeaturesCols
        [Col.u_forecast, Col.v_forecast, Col.T_forecast] =
      Except.error Col.relative_humidity_approx ∧
    createMeteorologicalFeaturesCols
        [Col.w_forecast, Col.T_forecast, Col.q_forecast] =
      Except.ok [Col.w_forecast, Col.T_forecast, Col.q_forecast,
        Col.vertical_wind_abs, Col.vertical_stability,
        Col.vertical_wind_squared, Col.temp_celsius, Col.temp_category,
        Col.temp_gradient, Col.temp_gradient_abs, Col.temp_sin_daily,
        Col.temp_cos_daily, Col.humidity_log, Col.humidity_sqrt,
        Col.relative_humidity_approx, Col.dew_point_approx, Col.vpd] :=
  ⟨rfl, rfl, rfl⟩

end AeroCast
